import Mathlib

/-!
Verification of the job-queue core (JobStore / Worker / BroadcastHub).

Shallow embedding of `backend/database.py` (class `JobDatabase`),
`backend/worker.py` (class `BackgroundWorker`, retry policy) and
`backend/websocket_manager.py` (class `ConnectionManager`), together with
proofs and refutations of the spec's claims about them.

The SQLite table `jobs` is modelled as a list of rows kept in rowid
(insertion) order, which is the order a plain `SELECT` over this table
returns (the table is never vacuumed and rows are never deleted).
`CURRENT_TIMESTAMP` is modelled by a logical clock carried in the store
state.  Python's `json` module is modelled abstractly: a stored TEXT cell
is classified by how `json.loads` treats it (a valid-JSON text remembering
the value it encodes, the empty string, or a non-empty invalid text), and
`json.dumps` of a dict produces the valid-JSON text of that dict.
-/

/-- JSON values, the payloads of the `metadata` and `output_paths` columns. -/
inductive Json where
  | null : Json
  | bool (b : Bool) : Json
  | num (n : Int) : Json
  | str (s : String) : Json
  | arr (elems : List Json) : Json
  | obj (fields : List (String × Json)) : Json

/-- A text value stored in a TEXT column, classified by how Python's
`json.loads` treats it: `jsonText j` is a (necessarily non-empty) string
that parses as the JSON value `j` (in particular `json.dumps j`),
`emptyText` is the empty string `""`, and `invalidText s` is a non-empty
string that `json.loads` rejects with `JSONDecodeError`. -/
inductive TextCell where
  | jsonText (j : Json) : TextCell
  | emptyText : TextCell
  | invalidText (s : String) : TextCell

/-- Python truthiness of the stored string (`if job_dict.get(...)`):
only the empty string is falsy. -/
def textTruthy : TextCell → Bool
  | TextCell.emptyText => false
  | _ => true

/-- Model of `json.loads` on a stored text: succeeds exactly on valid JSON. -/
def jsonLoads : TextCell → Option Json
  | TextCell.jsonText j => some j
  | TextCell.emptyText => none
  | TextCell.invalidText _ => none

/-- The value a JSON-bearing field holds in the dict returned by
`JobDatabase._row_to_dict`: `None`, a parsed JSON value, or the raw
stored string when parsing was skipped (falsy string). -/
inductive JsonField where
  | null : JsonField
  | parsed (j : Json) : JsonField
  | unparsed (t : TextCell) : JsonField

/-- One row of the SQLite `jobs` table (`database.py`, `_init_db`). -/
structure JobRow where
  id : String
  video_id : String
  video_title : Option String
  playlist_id : Option String
  channel_id : Option String
  status : String
  progress : Rat
  created_at : Nat
  started_at : Option Nat
  completed_at : Option Nat
  error_message : Option String
  retry_count : Nat
  output_paths : Option TextCell
  metadata : Option TextCell

/-- The job dict produced by `JobDatabase._row_to_dict`: same fields as the
row, with the `output_paths` and `metadata` TEXT cells run through the
JSON-parsing step. -/
structure Job where
  id : String
  video_id : String
  video_title : Option String
  playlist_id : Option String
  channel_id : Option String
  status : String
  progress : Rat
  created_at : Nat
  started_at : Option Nat
  completed_at : Option Nat
  error_message : Option String
  retry_count : Nat
  output_paths : JsonField
  metadata : JsonField

/-- The JSON-field processing of `_row_to_dict`: a NULL column stays `None`;
a truthy (non-empty) string is parsed, with `JSONDecodeError` mapped to
`None` by the `try/except`; a falsy (empty) string skips the parse and is
returned unchanged. -/
def parseJsonField (c : Option TextCell) : JsonField :=
  match c with
  | none => JsonField.null
  | some t =>
    if textTruthy t then
      match jsonLoads t with
      | some j => JsonField.parsed j
      | none => JsonField.null
    else
      JsonField.unparsed t

/-- `JobDatabase._row_to_dict`. -/
def rowToDict (r : JobRow) : Job :=
  { id := r.id
    video_id := r.video_id
    video_title := r.video_title
    playlist_id := r.playlist_id
    channel_id := r.channel_id
    status := r.status
    progress := r.progress
    created_at := r.created_at
    started_at := r.started_at
    completed_at := r.completed_at
    error_message := r.error_message
    retry_count := r.retry_count
    output_paths := parseJsonField r.output_paths
    metadata := parseJsonField r.metadata }

/-- The store state: the `jobs` table in rowid (insertion) order plus a
logical clock standing for `CURRENT_TIMESTAMP`. -/
structure JobDB where
  rows : List JobRow
  clock : Nat

/-- A freshly initialised database (`_init_db` creates an empty table). -/
def emptyDB : JobDB := { rows := [], clock := 0 }

/-- `json.dumps(metadata) if metadata else None` in `create_job`: `None`
and the empty dict are falsy and store NULL; a non-empty dict is dumped. -/
def metadataJson (m : Option (List (String × Json))) : Option TextCell :=
  match m with
  | none => none
  | some [] => none
  | some fields => some (TextCell.jsonText (Json.obj fields))

/-- `JobDatabase.create_job`: INSERTs a row with the schema defaults
`status='pending', progress=0.0, retry_count=0`, stamping `created_at`
with the current time, then reads the job back.  A duplicate id violates
the PRIMARY KEY and raises `sqlite3.IntegrityError`, modelled as `none`
with the store unchanged. -/
def create_job (db : JobDB) (job_id video_id : String)
    (video_title playlist_id channel_id : Option String)
    (metadata : Option (List (String × Json))) : JobDB × Option JobRow :=
  if db.rows.any (fun r => r.id = job_id) then
    (db, none)
  else
    let newRow : JobRow :=
      { id := job_id
        video_id := video_id
        video_title := video_title
        playlist_id := playlist_id
        channel_id := channel_id
        status := "pending"
        progress := 0
        created_at := db.clock
        started_at := none
        completed_at := none
        error_message := none
        retry_count := 0
        output_paths := none
        metadata := metadataJson metadata }
    ({ rows := db.rows ++ [newRow], clock := db.clock + 1 }, some newRow)

/-- `SELECT * FROM jobs WHERE id = ?` + `fetchone`: the id is the PRIMARY
KEY, so the first (only) matching row. -/
def findRow (db : JobDB) (job_id : String) : Option JobRow :=
  db.rows.find? (fun r => r.id = job_id)

/-- `JobDatabase.read_job`. -/
def read_job (db : JobDB) (job_id : String) : Option Job :=
  (findRow db job_id).map rowToDict

/-- The row-level effect of `JobDatabase.update_job_status`, one SQL UPDATE
per branch: `processing` with positive progress also stamps `started_at`;
`completed` forces `progress = 100` and stamps `completed_at`; `failed`
stores the error message and increments `retry_count` (progress untouched);
any other status writes `status` and `progress` as given. -/
def updateRowStatus (now : Nat) (status : String) (progress : Rat)
    (error_message : Option String) (r : JobRow) : JobRow :=
  if status = "processing" ∧ progress > 0 then
    { r with status := status, progress := progress, started_at := some now }
  else if status = "completed" then
    { r with status := status, progress := 100, completed_at := some now }
  else if status = "failed" then
    { r with status := status, error_message := error_message,
             retry_count := r.retry_count + 1 }
  else
    { r with status := status, progress := progress }

/-- `UPDATE jobs SET ... WHERE id = ?`: rewrite every row matching the id. -/
def applyUpdateById (rows : List JobRow) (job_id : String)
    (f : JobRow → JobRow) : List JobRow :=
  rows.map (fun r => if r.id = job_id then f r else r)

/-- `JobDatabase.update_job_status`, returning the new store and
`read_job` of the touched id. -/
def update_job_status (db : JobDB) (job_id status : String)
    (progress : Rat) (error_message : Option String) : JobDB × Option Job :=
  let db' : JobDB :=
    { rows := applyUpdateById db.rows job_id
        (updateRowStatus db.clock status progress error_message)
      clock := db.clock + 1 }
  (db', read_job db' job_id)

/-- `JobDatabase.list_jobs`: `if status:` — `None` and the empty string
are falsy and select everything; otherwise filter by status.  A plain
`SELECT` returns rows in rowid (insertion) order. -/
def list_jobs (db : JobDB) (status : Option String) : List Job :=
  match status with
  | some s =>
    if s = "" then db.rows.map rowToDict
    else (db.rows.filter (fun r => r.status = s)).map rowToDict
  | none => db.rows.map rowToDict

/-- `JobDatabase.list_pending_jobs`. -/
def list_pending_jobs (db : JobDB) : List Job :=
  list_jobs db (some "pending")

/-- Helper for the `output_paths` dict built by `update_output_paths`:
a missing argument becomes JSON `null`. -/
def optStrJson : Option String → Json
  | none => Json.null
  | some s => Json.str s

/-- The JSON object `{"transcript_md": ..., "transcript_json": ...,
"metadata": ...}` that `update_output_paths` always builds in full. -/
def outputPathsObj (transcript_md transcript_json metadata_file :
    Option String) : Json :=
  Json.obj
    [("transcript_md", optStrJson transcript_md),
     ("transcript_json", optStrJson transcript_json),
     ("metadata", optStrJson metadata_file)]

/-- `JobDatabase.update_output_paths`: dumps the freshly built three-field
dict and overwrites the `output_paths` column of the matching row. -/
def update_output_paths (db : JobDB) (job_id : String)
    (transcript_md transcript_json metadata_file : Option String) :
    JobDB × Option Job :=
  let cell := TextCell.jsonText
    (outputPathsObj transcript_md transcript_json metadata_file)
  let db' : JobDB :=
    { rows := applyUpdateById db.rows job_id
        (fun r => { r with output_paths := some cell })
      clock := db.clock + 1 }
  (db', read_job db' job_id)

/-- The crash-recovery error message written by `recover_orphaned_jobs`. -/
def crashErrorMsg : String := "Max retries exceeded after worker crash"

/-- The permanent-failure UPDATE of `recover_orphaned_jobs`:
`SET status = 'failed', error_message = 'Max retries exceeded after worker
crash'`. -/
def rowFailCrash (r : JobRow) : JobRow :=
  { r with status := "failed", error_message := some crashErrorMsg }

/-- The reset UPDATE of `recover_orphaned_jobs`:
`SET status = 'pending', progress = 0.0, error_message = NULL`. -/
def rowResetPending (r : JobRow) : JobRow :=
  { r with status := "pending", progress := 0, error_message := none }

/-- One iteration of the loop in `recover_orphaned_jobs` over the orphaned
snapshot: a row at or past the retry limit is marked permanently failed
(id not collected); otherwise it is reset to pending and its id appended
to the recovered list. -/
def recoverStep (max_retries : Nat) (acc : List JobRow × List String)
    (orow : JobRow) : List JobRow × List String :=
  if max_retries ≤ orow.retry_count then
    (applyUpdateById acc.1 orow.id rowFailCrash, acc.2)
  else
    (applyUpdateById acc.1 orow.id rowResetPending, acc.2 ++ [orow.id])

/-- `JobDatabase.recover_orphaned_jobs`: snapshot the rows with
`status = 'processing'`, then update each by id, collecting the ids of
those reset to pending. -/
def recover_orphaned_jobs (db : JobDB) (max_retries : Nat) :
    JobDB × List String :=
  let orphaned := db.rows.filter (fun r => r.status = "processing")
  let res := orphaned.foldl (recoverStep max_retries) (db.rows, [])
  ({ rows := res.1, clock := db.clock + 1 }, res.2)

/-- `BackgroundWorker.MAX_RETRIES`. -/
def MAX_RETRIES : Nat := 3

/-- `BackgroundWorker.INITIAL_RETRY_DELAY` (seconds). -/
def INITIAL_RETRY_DELAY : Nat := 5

/-- `BackgroundWorker._handle_job_failure`: re-read the job; below the
retry limit, write `failed` with a "will retry" message, wait
`INITIAL_RETRY_DELAY * 2 ^ retry_count` seconds, then re-queue to
`pending` with progress 0; at or past the limit, write `failed` with a
"Max retries exceeded" message and stop.  Returns the final store and the
backoff delay slept, `none` on the permanent branch (no re-queue). -/
def handle_job_failure (db : JobDB) (job_id error_msg : String) :
    JobDB × Option Nat :=
  match read_job db job_id with
  | none => (db, none)
  | some job =>
    let retry_count := job.retry_count
    if retry_count < MAX_RETRIES then
      let db1 := (update_job_status db job_id "failed" 0
        (some (error_msg ++ " (will retry, attempt " ++
          toString (retry_count + 1) ++ "/" ++ toString MAX_RETRIES ++ ")"))).1
      let delay := INITIAL_RETRY_DELAY * 2 ^ retry_count
      let db2 := (update_job_status db1 job_id "pending" 0 none).1
      (db2, some delay)
    else
      let db1 := (update_job_status db job_id "failed" 0
        (some ("Max retries exceeded (" ++ toString MAX_RETRIES ++ "): " ++
          error_msg))).1
      (db1, none)

/-- The job the poll loop (`BackgroundWorker._process_loop`) selects on an
iteration: `pending_jobs[0]` of `list_pending_jobs`, or `none` when idle. -/
def selectNextJob (db : JobDB) : Option Job :=
  (list_pending_jobs db).head?

/-- An observer connection handle (`websocket_manager.py`); opaque beyond
identity. -/
structure Conn where
  cid : Nat
deriving DecidableEq

/-- `ConnectionManager.disconnect`: remove the first occurrence of the
connection from the live list if present; a no-op otherwise. -/
def disconnect (active : List Conn) (c : Conn) : List Conn :=
  if c ∈ active then active.erase c else active

/-- `ConnectionManager.broadcast`: attempt `send_json` on every live
connection in order (`sendOk c` tells whether the send for `c` succeeds or
raises), collect the failing ones, then `disconnect` each of them.
Returns the live list afterwards and the connections delivered to. -/
def broadcast (sendOk : Conn → Bool) (active : List Conn) :
    List Conn × List Conn :=
  let delivered := active.filter (fun c => sendOk c)
  let disconnected := active.filter (fun c => !(sendOk c))
  (disconnected.foldl disconnect active, delivered)

/-! ## Basic lemmas about the embedding -/

theorem rowToDict_status (r : JobRow) : (rowToDict r).status = r.status := rfl

theorem rowToDict_progress (r : JobRow) : (rowToDict r).progress = r.progress := rfl

theorem rowToDict_retry_count (r : JobRow) : (rowToDict r).retry_count = r.retry_count := rfl

theorem rowToDict_created_at (r : JobRow) : (rowToDict r).created_at = r.created_at := rfl

theorem updateRowStatus_id (now : Nat) (st : String) (p : Rat)
    (em : Option String) (r : JobRow) :
    (updateRowStatus now st p em r).id = r.id := by
  unfold updateRowStatus
  split_ifs <;> rfl

theorem updateRowStatus_created_at (now : Nat) (st : String) (p : Rat)
    (em : Option String) (r : JobRow) :
    (updateRowStatus now st p em r).created_at = r.created_at := by
  unfold updateRowStatus
  split_ifs <;> rfl

theorem updateRowStatus_failed (now : Nat) (p : Rat) (em : Option String)
    (r : JobRow) :
    updateRowStatus now "failed" p em r =
      { r with status := "failed", error_message := em,
               retry_count := r.retry_count + 1 } := by
  unfold updateRowStatus
  rw [if_neg (fun h => absurd h.1 (by decide)), if_neg (by decide),
      if_pos rfl]

theorem updateRowStatus_pending_zero (now : Nat) (em : Option String)
    (r : JobRow) :
    updateRowStatus now "pending" 0 em r =
      { r with status := "pending", progress := 0 } := by
  unfold updateRowStatus
  rw [if_neg (fun h => absurd h.2 (by decide)), if_neg (by decide),
      if_neg (by decide)]

/-- `UPDATE ... WHERE id = ?` commutes with the primary-key lookup when the
update preserves the id. -/
theorem findRow_applyUpdateById (rows : List JobRow) (jid : String)
    (g : JobRow → JobRow) (hg : ∀ r, (g r).id = r.id) :
    (applyUpdateById rows jid g).find? (fun r => r.id = jid) =
      Option.map g (rows.find? (fun r => r.id = jid)) := by
  unfold applyUpdateById
  rw [List.find?_map]
  have hp : ((fun r : JobRow => decide (r.id = jid)) ∘
      fun r => if r.id = jid then g r else r) =
      fun r : JobRow => decide (r.id = jid) := by
    funext r
    by_cases h : r.id = jid
    · simp [h, hg r]
    · simp [h]
  rw [hp]
  cases hf : rows.find? (fun r => r.id = jid) with
  | none => rfl
  | some r0 =>
    have h0 : r0.id = jid := by simpa using List.find?_some hf
    simp [h0]

theorem findRow_update_status (db : JobDB) (jid st : String) (p : Rat)
    (em : Option String) :
    findRow (update_job_status db jid st p em).1 jid =
      Option.map (updateRowStatus db.clock st p em) (findRow db jid) := by
  unfold findRow update_job_status
  exact findRow_applyUpdateById db.rows jid _
    (fun r => updateRowStatus_id db.clock st p em r)

theorem read_job_update_status (db : JobDB) (jid st : String) (p : Rat)
    (em : Option String) :
    read_job (update_job_status db jid st p em).1 jid =
      Option.map (fun r => rowToDict (updateRowStatus db.clock st p em r))
        (findRow db jid) := by
  unfold read_job
  rw [findRow_update_status, Option.map_map]
  rfl

theorem findRow_update_output (db : JobDB) (jid : String)
    (tm tj mf : Option String) :
    findRow (update_output_paths db jid tm tj mf).1 jid =
      Option.map
        (fun r =>
          { r with output_paths := some (TextCell.jsonText (outputPathsObj tm tj mf)) })
        (findRow db jid) := by
  unfold findRow update_output_paths
  exact findRow_applyUpdateById db.rows jid _ (fun r => rfl)

/-! ## C9 — `update_output_paths` overwrites rather than merges -/

/-- C9 (amended): `update_output_paths` replaces the whole stored
`output_paths` record with a dict built from just the supplied arguments;
fields absent from the input become JSON null regardless of what was
stored before, and every other job field is unchanged. -/
theorem C9_output_paths_overwrite (db : JobDB) (jid : String)
    (tm tj mf : Option String) :
    read_job (update_output_paths db jid tm tj mf).1 jid =
      Option.map
        (fun j =>
          { j with output_paths := JsonField.parsed (outputPathsObj tm tj mf) })
        (read_job db jid) := by
  unfold read_job
  rw [findRow_update_output, Option.map_map, Option.map_map]
  cases findRow db jid with
  | none => rfl
  | some r => rfl

/-- A one-job store used to exercise `update_output_paths`. -/
def baseRow (jid vid : String) (ts : Nat) : JobRow :=
  { id := jid
    video_id := vid
    video_title := none
    playlist_id := none
    channel_id := none
    status := "pending"
    progress := 0
    created_at := ts
    started_at := none
    completed_at := none
    error_message := none
    retry_count := 0
    output_paths := none
    metadata := none }

def C9db0 : JobDB := { rows := [baseRow "j" "v" 0], clock := 1 }

def C9db1 : JobDB :=
  (update_output_paths C9db0 "j" (some "a") (some "b") (some "c")).1

def C9db2 : JobDB := (update_output_paths C9db1 "j" (some "d") none none).1

/-- C9 counterexample: after storing all three paths, a second call
supplying only `transcript_md` leaves `transcript_json` and `metadata`
as JSON null — the previously stored `"b"`/`"c"` are not kept, so the
claimed merge semantics fail. -/
theorem C9_counterexample :
    (read_job C9db1 "j").map (fun j => j.output_paths) =
      some (JsonField.parsed (outputPathsObj (some "a") (some "b") (some "c"))) ∧
    (read_job C9db2 "j").map (fun j => j.output_paths) =
      some (JsonField.parsed (outputPathsObj (some "d") none none)) ∧
    JsonField.parsed (outputPathsObj (some "d") none none) ≠
      JsonField.parsed (outputPathsObj (some "d") (some "b") (some "c")) :=
  ⟨rfl, rfl, by simp [outputPathsObj, optStrJson]⟩

/-! ## C7 — create followed by read -/

/-- The job dict `create_job` + `read_job` yields for a fresh id: schema
defaults plus the supplied optional fields; the metadata payload is
round-tripped through `json.dumps`/`json.loads` unless it is falsy
(`None` or the empty dict), in which case NULL is stored and `None` read
back. -/
def createdJob (db : JobDB) (jid vid : String)
    (vt pid cid : Option String) (m : Option (List (String × Json))) : Job :=
  { id := jid
    video_id := vid
    video_title := vt
    playlist_id := pid
    channel_id := cid
    status := "pending"
    progress := 0
    created_at := db.clock
    started_at := none
    completed_at := none
    error_message := none
    retry_count := 0
    output_paths := JsonField.null
    metadata :=
      match m with
      | some (f :: fs) => JsonField.parsed (Json.obj (f :: fs))
      | _ => JsonField.null }

/-- C7 (amended): for a fresh id, `create_job` followed by `read_job`
returns a record with `status=pending, progress=0, retry_count=0` and all
supplied optional fields preserved exactly; a non-empty metadata payload
is round-tripped verbatim, while `None` or an empty dict is stored as
NULL and read back as `None`. -/
theorem C7_create_read_roundtrip (db : JobDB) (jid vid : String)
    (vt pid cid : Option String) (m : Option (List (String × Json)))
    (hfresh : ∀ r ∈ db.rows, r.id ≠ jid) :
    read_job (create_job db jid vid vt pid cid m).1 jid =
      some (createdJob db jid vid vt pid cid m) := by
  have hany : db.rows.any (fun r => r.id = jid) = false :=
    List.any_eq_false.mpr (fun r hr => by simpa using hfresh r hr)
  have hnone : db.rows.find? (fun r => r.id = jid) = none :=
    List.find?_eq_none.mpr (fun r hr => by simpa using hfresh r hr)
  unfold create_job
  rw [if_neg (by simp [hany])]
  unfold read_job findRow
  simp only []
  rw [List.find?_append, hnone, Option.none_or,
      List.find?_cons_of_pos _ (by simp)]
  cases m with
  | none => rfl
  | some fs =>
    cases fs with
    | nil => rfl
    | cons f fs => rfl

def C7witnessMeta : List (String × Json) := [("k", Json.str "x")]

/-- C7 witness: a concrete create/read round-trip on the empty store with
every optional field supplied and a non-empty metadata payload. -/
theorem C7_witness :
    read_job (create_job emptyDB "j" "v" (some "t") (some "p") (some "c")
        (some C7witnessMeta)).1 "j" =
      some (createdJob emptyDB "j" "v" (some "t") (some "p") (some "c")
        (some C7witnessMeta)) :=
  C7_create_read_roundtrip emptyDB "j" "v" (some "t") (some "p") (some "c")
    (some C7witnessMeta) (fun r hr => by cases hr)

def C7db : JobDB := (create_job emptyDB "j" "v" none none none (some [])).1

/-- C7 counterexample: supplying the empty dict as metadata payload is not
round-tripped verbatim — `json.dumps(metadata) if metadata else None`
treats the empty dict as falsy, stores NULL, and `read_job` returns
`None` instead of the empty dict. -/
theorem C7_counterexample :
    (read_job C7db "j").map (fun j => j.metadata) = some JsonField.null ∧
    JsonField.null ≠ JsonField.parsed (Json.obj []) :=
  ⟨rfl, by simp⟩

/-! ## C10 — reads over arbitrary stored column contents -/

/-- C10 (amended): `read_job` is total over arbitrary stored column
contents and never raises: it always returns the `_row_to_dict` image of
the found row.  A non-empty string that is not valid JSON in
`output_paths` or `metadata` is returned as `None` (the
`JSONDecodeError` is swallowed); the empty string, however, is falsy, so
the parse step is skipped and the empty string itself is returned rather
than `None`. -/
theorem C10_read_total (db : JobDB) (jid : String) (r : JobRow) (s : String)
    (hfind : findRow db jid = some r) :
    read_job db jid = some (rowToDict r) ∧
    (r.metadata = some (TextCell.invalidText s) →
      (rowToDict r).metadata = JsonField.null) ∧
    (r.output_paths = some (TextCell.invalidText s) →
      (rowToDict r).output_paths = JsonField.null) ∧
    (r.metadata = some TextCell.emptyText →
      (rowToDict r).metadata = JsonField.unparsed TextCell.emptyText) ∧
    (r.output_paths = some TextCell.emptyText →
      (rowToDict r).output_paths = JsonField.unparsed TextCell.emptyText) := by
  refine ⟨by rw [read_job, hfind]; rfl, ?_, ?_, ?_, ?_⟩
  all_goals intro h
  all_goals simp [rowToDict, parseJsonField, h, textTruthy, jsonLoads]

def C10row : JobRow :=
  { baseRow "j" "v" 0 with
      metadata := some (TextCell.invalidText "not json"),
      output_paths := some (TextCell.invalidText "still not json") }

def C10db : JobDB := { rows := [C10row], clock := 1 }

/-- C10 witness: a store whose row holds non-JSON text in both columns is
read back totally, with both fields mapped to `None`. -/
theorem C10_witness :
    read_job C10db "j" = some (rowToDict C10row) ∧
    (rowToDict C10row).metadata = JsonField.null ∧
    (rowToDict C10row).output_paths = JsonField.null :=
  ⟨(C10_read_total C10db "j" C10row "not json" rfl).1,
   (C10_read_total C10db "j" C10row "not json" rfl).2.1 rfl,
   (C10_read_total C10db "j" C10row "still not json" rfl).2.2.1 rfl⟩

def C10emptyRow : JobRow :=
  { baseRow "j" "v" 0 with metadata := some TextCell.emptyText }

def C10emptyDb : JobDB := { rows := [C10emptyRow], clock := 1 }

/-- C10 counterexample: the empty string is not valid JSON, yet `read_job`
returns it unchanged instead of `None` — the falsy check
`if job_dict.get("metadata")` skips the parse, so the claimed
"set to None for every invalid-JSON string" fails on `""`. -/
theorem C10_counterexample :
    (read_job C10emptyDb "j").map (fun j => j.metadata) =
      some (JsonField.unparsed TextCell.emptyText) ∧
    JsonField.unparsed TextCell.emptyText ≠ JsonField.null :=
  ⟨rfl, by simp⟩

/-! ## C2, C3 — the retry policy of `_handle_job_failure` -/

/-- C2 (amended): a job whose `retry_count` equals `MAX_RETRIES` is put
through the permanent-failure branch: one `failed` write with the
"Max retries exceeded" message, no re-queue to pending and no backoff
delay — but that `failed` write goes through `update_job_status`, whose
`failed` branch always increments `retry_count`, so the final record has
`retry_count = MAX_RETRIES + 1`, not an unchanged `MAX_RETRIES`. -/
theorem C2_permanent_failure (db : JobDB) (jid msg : String) (job : Job)
    (hread : read_job db jid = some job)
    (hrc : job.retry_count = MAX_RETRIES) :
    (handle_job_failure db jid msg).2 = none ∧
    (read_job (handle_job_failure db jid msg).1 jid).map
        (fun j => (j.status, j.error_message, j.retry_count)) =
      some ("failed",
        some ("Max retries exceeded (" ++ toString MAX_RETRIES ++ "): " ++ msg),
        MAX_RETRIES + 1) := by
  have hread' := hread
  rw [read_job] at hread'
  obtain ⟨r0, hfind, hrow⟩ := Option.map_eq_some'.mp hread'
  have hrc0 : r0.retry_count = MAX_RETRIES := by
    rw [← hrow, rowToDict_retry_count] at hrc
    exact hrc
  unfold handle_job_failure
  rw [hread]
  simp only [hrc]
  rw [if_neg (lt_irrefl MAX_RETRIES)]
  refine ⟨rfl, ?_⟩
  rw [read_job_update_status, hfind]
  simp [updateRowStatus_failed, rowToDict, hrc0]

def C2row : JobRow :=
  { baseRow "j" "v" 0 with status := "processing", retry_count := 3 }

def C2db : JobDB := { rows := [C2row], clock := 1 }

/-- C2 witness: a concrete job at the retry limit run through the failure
handler. -/
theorem C2_witness :
    (handle_job_failure C2db "j" "boom").2 = none ∧
    (read_job (handle_job_failure C2db "j" "boom").1 "j").map
        (fun j => (j.status, j.error_message, j.retry_count)) =
      some ("failed",
        some ("Max retries exceeded (" ++ toString MAX_RETRIES ++ "): " ++ "boom"),
        MAX_RETRIES + 1) :=
  C2_permanent_failure C2db "j" "boom" (rowToDict C2row) rfl rfl

/-- C2 counterexample: for the job at `retry_count = 3 = MAX_RETRIES`, the
handler leaves `retry_count = 4`, refuting the claim that it stays
unchanged at 3. -/
theorem C2_counterexample :
    (read_job (handle_job_failure C2db "j" "boom").1 "j").map
        (fun j => j.retry_count) = some 4 ∧
    some (4 : Nat) ≠ some (3 : Nat) :=
  ⟨rfl, by decide⟩

/-- C3 (confirmed): a job with `retry_count = MAX_RETRIES - 1` that fails
is first written `failed` — which increments `retry_count` to
`MAX_RETRIES` — and then, after a backoff delay of
`INITIAL_RETRY_DELAY * 2 ^ (MAX_RETRIES - 1)` (the exponent is the
pre-increment retry count), re-queued to `pending` with `progress = 0`;
the re-queue write leaves `retry_count` at `MAX_RETRIES`. -/
theorem C3_retry_boundary (db : JobDB) (jid msg : String) (job : Job)
    (hread : read_job db jid = some job)
    (hrc : job.retry_count = MAX_RETRIES - 1) :
    (handle_job_failure db jid msg).2 =
      some (INITIAL_RETRY_DELAY * 2 ^ (MAX_RETRIES - 1)) ∧
    (read_job (update_job_status db jid "failed" 0
        (some (msg ++ " (will retry, attempt " ++
          toString (MAX_RETRIES - 1 + 1) ++ "/" ++ toString MAX_RETRIES ++
          ")"))).1 jid).map (fun j => (j.status, j.retry_count)) =
      some ("failed", MAX_RETRIES) ∧
    (read_job (handle_job_failure db jid msg).1 jid).map
        (fun j => (j.status, j.progress, j.retry_count)) =
      some ("pending", (0 : Rat), MAX_RETRIES) := by
  have hread' := hread
  rw [read_job] at hread'
  obtain ⟨r0, hfind, hrow⟩ := Option.map_eq_some'.mp hread'
  have hrc0 : r0.retry_count = MAX_RETRIES - 1 := by
    rw [← hrow, rowToDict_retry_count] at hrc
    exact hrc
  unfold handle_job_failure
  rw [hread]
  simp only [hrc]
  rw [if_pos (by decide)]
  refine ⟨rfl, ?_, ?_⟩
  · rw [read_job_update_status, hfind]
    simp [updateRowStatus_failed, rowToDict, hrc0, MAX_RETRIES]
  · rw [read_job_update_status, findRow_update_status, hfind]
    simp [updateRowStatus_failed, updateRowStatus_pending_zero, rowToDict,
      hrc0, MAX_RETRIES]

def C3row : JobRow :=
  { baseRow "j" "v" 0 with status := "processing", retry_count := 2 }

def C3db : JobDB := { rows := [C3row], clock := 1 }

/-- C3 witness: a concrete job one failure away from the retry limit run
through the failure handler. -/
theorem C3_witness :
    (handle_job_failure C3db "j" "boom").2 =
      some (INITIAL_RETRY_DELAY * 2 ^ (MAX_RETRIES - 1)) ∧
    (read_job (update_job_status C3db "j" "failed" 0
        (some ("boom" ++ " (will retry, attempt " ++
          toString (MAX_RETRIES - 1 + 1) ++ "/" ++ toString MAX_RETRIES ++
          ")"))).1 "j").map (fun j => (j.status, j.retry_count)) =
      some ("failed", MAX_RETRIES) ∧
    (read_job (handle_job_failure C3db "j" "boom").1 "j").map
        (fun j => (j.status, j.progress, j.retry_count)) =
      some ("pending", (0 : Rat), MAX_RETRIES) :=
  C3_retry_boundary C3db "j" "boom" (rowToDict C3row) rfl rfl

/-! ## C1 — the completed/progress invariant over reachable stores -/

/-- The stores reachable from a fresh database through any sequence of
`JobStore` operations with arbitrary arguments. -/
inductive Reachable : JobDB → Prop where
  | empty : Reachable emptyDB
  | create (db : JobDB) (jid vid : String) (vt pid cid : Option String)
      (m : Option (List (String × Json))) :
      Reachable db → Reachable (create_job db jid vid vt pid cid m).1
  | status (db : JobDB) (jid st : String) (p : Rat) (em : Option String) :
      Reachable db → Reachable (update_job_status db jid st p em).1
  | output (db : JobDB) (jid : String) (tm tj mf : Option String) :
      Reachable db → Reachable (update_output_paths db jid tm tj mf).1
  | recover (db : JobDB) (mr : Nat) :
      Reachable db → Reachable (recover_orphaned_jobs db mr).1

/-- Any single status write preserves "completed implies progress 100" on
the row it touches. -/
theorem updateRowStatus_completed_inv (now : Nat) (st : String) (p : Rat)
    (em : Option String) (r : JobRow) :
    (updateRowStatus now st p em r).status = "completed" →
      (updateRowStatus now st p em r).progress = 100 := by
  unfold updateRowStatus
  split_ifs with h1 h2 h3
  · intro hs
    rw [h1.1] at hs
    have hs' : ("processing" : String) = "completed" := hs
    exact absurd hs' (by decide)
  · intro _
    rfl
  · intro hs
    rw [h3] at hs
    have hs' : ("failed" : String) = "completed" := hs
    exact absurd hs' (by decide)
  · intro hs
    exact absurd hs h2

/-- The recovery fold preserves any per-row property that both of its
UPDATE shapes preserve. -/
theorem foldl_recoverStep_pres (mr : Nat) (P : JobRow → Prop)
    (hfail : ∀ r, P r → P (rowFailCrash r))
    (hpend : ∀ r, P r → P (rowResetPending r)) :
    ∀ (os acc : List JobRow) (rec : List String),
      (∀ r ∈ acc, P r) →
      ∀ r ∈ (os.foldl (recoverStep mr) (acc, rec)).1, P r := by
  intro os
  induction os with
  | nil =>
    intro acc rec hacc r hr
    exact hacc r hr
  | cons o os ih =>
    intro acc rec hacc r hr
    rw [List.foldl_cons] at hr
    unfold recoverStep at hr
    by_cases hro : mr ≤ o.retry_count
    · rw [if_pos hro] at hr
      refine ih _ _ ?_ r hr
      intro x hx
      unfold applyUpdateById at hx
      rw [List.mem_map] at hx
      obtain ⟨y, hy, rfl⟩ := hx
      by_cases hid : y.id = o.id
      · rw [if_pos hid]
        exact hfail y (hacc y hy)
      · rw [if_neg hid]
        exact hacc y hy
    · rw [if_neg hro] at hr
      refine ih _ _ ?_ r hr
      intro x hx
      unfold applyUpdateById at hx
      rw [List.mem_map] at hx
      obtain ⟨y, hy, rfl⟩ := hx
      by_cases hid : y.id = o.id
      · rw [if_pos hid]
        exact hpend y (hacc y hy)
      · rw [if_neg hid]
        exact hacc y hy

/-- Every reachable store satisfies the forward invariant at row level. -/
theorem reachable_completed_inv (db : JobDB) (h : Reachable db) :
    ∀ r ∈ db.rows, r.status = "completed" → r.progress = 100 := by
  induction h with
  | empty =>
    intro r hr
    cases hr
  | create db jid vid vt pid cid m hdb ih =>
    intro r hr
    simp only [create_job] at hr
    by_cases hc : (db.rows.any (fun x => x.id = jid)) = true
    · rw [if_pos hc] at hr
      exact ih r hr
    · rw [if_neg hc] at hr
      rw [List.mem_append] at hr
      cases hr with
      | inl hin => exact ih r hin
      | inr hnew =>
        rw [List.mem_singleton] at hnew
        subst hnew
        intro hs
        have hs' : ("pending" : String) = "completed" := hs
        exact absurd hs' (by decide)
  | status db jid st p em hdb ih =>
    intro r hr
    simp only [update_job_status, applyUpdateById] at hr
    rw [List.mem_map] at hr
    obtain ⟨x, hx, rfl⟩ := hr
    by_cases hid : x.id = jid
    · rw [if_pos hid]
      exact updateRowStatus_completed_inv db.clock st p em x
    · rw [if_neg hid]
      exact ih x hx
  | output db jid tm tj mf hdb ih =>
    intro r hr
    simp only [update_output_paths, applyUpdateById] at hr
    rw [List.mem_map] at hr
    obtain ⟨x, hx, rfl⟩ := hr
    by_cases hid : x.id = jid
    · rw [if_pos hid]
      exact ih x hx
    · rw [if_neg hid]
      exact ih x hx
  | recover db mr hdb ih =>
    intro r hr
    simp only [recover_orphaned_jobs] at hr
    refine foldl_recoverStep_pres mr
      (fun x => x.status = "completed" → x.progress = 100)
      (fun x _ hs => absurd hs (by simp [rowFailCrash]))
      (fun x _ hs => absurd hs (by simp [rowResetPending]))
      _ db.rows [] ih r hr

/-- C1 (amended): over every store reachable by any sequence of JobStore
operations, `status == completed` implies `progress == 100`.  The claimed
converse direction does not hold (see the counterexample): an
`update_job_status` call can store `progress = 100` under a
non-`completed` status. -/
theorem C1_completed_implies_progress (db : JobDB) (h : Reachable db) :
    ∀ j ∈ list_jobs db none, j.status = "completed" → j.progress = 100 := by
  intro j hj
  simp only [list_jobs] at hj
  rw [List.mem_map] at hj
  obtain ⟨r, hr, rfl⟩ := hj
  exact reachable_completed_inv db h r hr

def C1wrow : JobRow :=
  { baseRow "j" "v" 0 with
      status := "completed", progress := 100, completed_at := some 1 }

def C1wdb : JobDB :=
  (update_job_status (create_job emptyDB "j" "v" none none none none).1
    "j" "completed" 0 none).1

/-- C1 witness: a store holding one completed job, reached by a concrete
create followed by a completed-status write. -/
theorem C1_witness : (rowToDict C1wrow).progress = 100 :=
  C1_completed_implies_progress C1wdb
    (Reachable.status (create_job emptyDB "j" "v" none none none none).1
      "j" "completed" 0 none
      (Reachable.create emptyDB "j" "v" none none none none Reachable.empty))
    (rowToDict C1wrow)
    (show rowToDict C1wrow ∈ [rowToDict C1wrow] from
      List.mem_singleton.mpr rfl)
    rfl

def C1badRow : JobRow :=
  { baseRow "j" "v" 0 with
      status := "processing", progress := 100, started_at := some 1 }

def C1badDb : JobDB :=
  (update_job_status (create_job emptyDB "j" "v" none none none none).1
    "j" "processing" 100 none).1

/-- C1 counterexample: the reachable store obtained by
`create_job` then `update_job_status(id, "processing", progress=100)`
holds a record with `progress = 100` and `status = "processing"`, so the
claimed equivalence `status == completed ⟺ progress == 100` fails in the
right-to-left direction. -/
theorem C1_counterexample :
    ¬ (∀ j ∈ list_jobs C1badDb none,
        (j.status = "completed" ↔ j.progress = 100)) := by
  intro h
  have hmem : rowToDict C1badRow ∈ list_jobs C1badDb none :=
    show rowToDict C1badRow ∈ [rowToDict C1badRow] from
      List.mem_singleton.mpr rfl
  have hs : (rowToDict C1badRow).status = "completed" :=
    (h (rowToDict C1badRow) hmem).mpr rfl
  exact absurd hs (by decide)

/-! ## C4, C5 — the crash-recovery sweep -/

/-- The per-row decision `recover_orphaned_jobs` takes for an orphaned
(processing) row. -/
def recoverOutcome (mr : Nat) (r : JobRow) : JobRow :=
  if mr ≤ r.retry_count then rowFailCrash r else rowResetPending r

theorem recoverOutcome_id (mr : Nat) (r : JobRow) :
    (recoverOutcome mr r).id = r.id := by
  unfold recoverOutcome
  split_ifs <;> rfl

/-- One recovery-loop iteration, assuming the orphan is the unique row
with its id: update exactly the matching rows by the orphan's own
decision, and append its id to the recovered list exactly when it is
below the retry limit. -/
theorem recoverStep_eq (mr : Nat) (acc : List JobRow) (rec : List String)
    (o : JobRow) (hin : ∀ r ∈ acc, r.id = o.id → r = o) :
    recoverStep mr (acc, rec) o =
      (acc.map (fun r => if r.id = o.id then recoverOutcome mr r else r),
       rec ++ if o.retry_count < mr then [o.id] else []) := by
  unfold recoverStep applyUpdateById
  dsimp only
  by_cases hro : mr ≤ o.retry_count
  · rw [if_pos hro, if_neg (Nat.not_lt.mpr hro), List.append_nil]
    congr 1
    refine List.map_congr_left ?_
    intro r hr
    by_cases hid : r.id = o.id
    · rw [if_pos hid, if_pos hid]
      have hro' : mr ≤ r.retry_count := by
        rw [hin r hr hid]
        exact hro
      unfold recoverOutcome
      rw [if_pos hro']
    · rw [if_neg hid, if_neg hid]
  · rw [if_neg hro, if_pos (Nat.not_le.mp hro)]
    congr 1
    refine List.map_congr_left ?_
    intro r hr
    by_cases hid : r.id = o.id
    · rw [if_pos hid, if_pos hid]
      have hro' : ¬ mr ≤ r.retry_count := by
        rw [hin r hr hid]
        exact hro
      unfold recoverOutcome
      rw [if_neg hro']
    · rw [if_neg hid, if_neg hid]

/-- The recovery fold, characterised: when the orphan ids are distinct and
each orphan is the unique row bearing its id, the fold maps every row by
its own recovery decision (restricted to the orphaned ids) and collects
the below-limit orphan ids in order. -/
theorem foldl_recoverStep_eq (mr : Nat) :
    ∀ (os acc : List JobRow) (rec : List String),
      (∀ o ∈ os, ∀ r ∈ acc, r.id = o.id → r = o) →
      (os.map (fun r => r.id)).Nodup →
      os.foldl (recoverStep mr) (acc, rec) =
        (acc.map (fun r =>
            if r.id ∈ os.map (fun x => x.id) then recoverOutcome mr r else r),
         rec ++ (os.filter (fun o => o.retry_count < mr)).map
           (fun o => o.id)) := by
  intro os
  induction os with
  | nil =>
    intro acc rec hin hnd
    simp
  | cons o os ih =>
    intro acc rec hin hnd
    have hnd2 := hnd
    rw [List.map_cons, List.nodup_cons] at hnd2
    have hano : o.id ∉ os.map (fun x => x.id) := hnd2.1
    have hnd' : (os.map (fun x => x.id)).Nodup := hnd2.2
    rw [List.foldl_cons,
        recoverStep_eq mr acc rec o (hin o (List.mem_cons_self o os))]
    have hin' : ∀ o' ∈ os,
        ∀ r ∈ acc.map (fun r =>
          if r.id = o.id then recoverOutcome mr r else r),
        r.id = o'.id → r = o' := by
      intro o' ho' r hr hid
      obtain ⟨y, hy, rfl⟩ := List.mem_map.mp hr
      by_cases hyo : y.id = o.id
      · exfalso
        rw [if_pos hyo] at hid
        rw [recoverOutcome_id] at hid
        have hoo : o.id = o'.id := by
          rw [← hyo, hid]
        apply hano
        rw [hoo]
        exact List.mem_map_of_mem _ ho'
      · rw [if_neg hyo] at hid ⊢
        exact hin o' (List.mem_cons_of_mem o ho') y hy hid
    rw [ih _ _ hin' hnd']
    have hfst : (acc.map (fun r =>
          if r.id = o.id then recoverOutcome mr r else r)).map (fun r =>
            if r.id ∈ os.map (fun x => x.id) then recoverOutcome mr r
            else r) =
        acc.map (fun r =>
          if r.id ∈ (o :: os).map (fun x => x.id) then recoverOutcome mr r
          else r) := by
      rw [List.map_map]
      refine List.map_congr_left ?_
      intro r hr
      dsimp only [Function.comp]
      by_cases h1 : r.id = o.id
      · rw [if_pos h1, recoverOutcome_id,
            if_neg (by rw [h1]; exact hano),
            if_pos (by rw [List.map_cons, h1]; exact List.mem_cons_self _ _)]
      · rw [if_neg h1]
        by_cases h2 : r.id ∈ os.map (fun x => x.id)
        · rw [if_pos h2,
              if_pos (by rw [List.map_cons]; exact List.mem_cons_of_mem _ h2)]
        · rw [if_neg h2, if_neg ?_]
          rw [List.map_cons]
          intro hmem
          rcases List.mem_cons.mp hmem with h | h
          · exact h1 h
          · exact h2 h
    have hsnd : (rec ++ if o.retry_count < mr then [o.id] else []) ++
          (os.filter (fun x => x.retry_count < mr)).map (fun x => x.id) =
        rec ++ ((o :: os).filter (fun x => x.retry_count < mr)).map
          (fun x => x.id) := by
      rw [List.append_assoc, List.filter_cons]
      by_cases hlt : o.retry_count < mr
      · rw [if_pos hlt,
            if_pos (show decide (o.retry_count < mr) = true from by
              simpa using hlt),
            List.map_cons, List.singleton_append]
      · rw [if_neg hlt,
            if_neg (show ¬ decide (o.retry_count < mr) = true from by
              simpa using hlt),
            List.nil_append]
    rw [hfst, hsnd]

/-- C4 (confirmed): `recover_orphaned_jobs` modifies exactly the rows with
`status = 'processing'`: one at or past the retry limit becomes `failed`
with the crash error message and its id is not returned; one below the
limit is reset to `pending, progress = 0, error_message = NULL` and its
id is returned.  Stated under the PRIMARY KEY invariant that row ids are
distinct. -/
theorem C4_recover_orphaned (db : JobDB) (mr : Nat)
    (hids : (db.rows.map (fun r => r.id)).Nodup) :
    (recover_orphaned_jobs db mr).1.rows =
      db.rows.map (fun r =>
        if r.status = "processing" then recoverOutcome mr r else r) ∧
    (recover_orphaned_jobs db mr).2 =
      (db.rows.filter (fun r =>
        r.status = "processing" ∧ r.retry_count < mr)).map (fun r => r.id) ∧
    (∀ r ∈ db.rows, r.status = "processing" → mr ≤ r.retry_count →
      r.id ∉ (recover_orphaned_jobs db mr).2) ∧
    (∀ r ∈ db.rows, r.status = "processing" → r.retry_count < mr →
      r.id ∈ (recover_orphaned_jobs db mr).2) := by
  have hinj : ∀ x ∈ db.rows, ∀ y ∈ db.rows, x.id = y.id → x = y :=
    fun x hx y hy hxy => List.inj_on_of_nodup_map hids hx hy hxy
  have hin : ∀ o ∈ db.rows.filter (fun r => r.status = "processing"),
      ∀ r ∈ db.rows, r.id = o.id → r = o :=
    fun o ho r hr hid => hinj r hr o (List.mem_of_mem_filter ho) hid
  have hnd : ((db.rows.filter (fun r => r.status = "processing")).map
      (fun r => r.id)).Nodup :=
    hids.sublist ((List.filter_sublist db.rows).map _)
  have hfold := foldl_recoverStep_eq mr
    (db.rows.filter (fun r => r.status = "processing")) db.rows [] hin hnd
  have hmemiff : ∀ r ∈ db.rows,
      (r.id ∈ (db.rows.filter (fun r => r.status = "processing")).map
        (fun x => x.id) ↔ r.status = "processing") := by
    intro r hr
    constructor
    · intro hmem
      obtain ⟨o, ho, hido⟩ := List.mem_map.mp hmem
      have heq : r = o := hinj r hr o (List.mem_of_mem_filter ho) hido.symm
      rw [heq]
      exact of_decide_eq_true (List.mem_filter.mp ho).2
    · intro hst
      exact List.mem_map_of_mem _
        (List.mem_filter.mpr ⟨hr, by simpa using hst⟩)
  have h1 : (recover_orphaned_jobs db mr).1.rows =
      db.rows.map (fun r =>
        if r.status = "processing" then recoverOutcome mr r else r) := by
    simp only [recover_orphaned_jobs]
    rw [hfold]
    dsimp only
    refine List.map_congr_left ?_
    intro r hr
    by_cases hst : r.status = "processing"
    · rw [if_pos ((hmemiff r hr).mpr hst), if_pos hst]
    · rw [if_neg (fun hmem => hst ((hmemiff r hr).mp hmem)), if_neg hst]
  have h2 : (recover_orphaned_jobs db mr).2 =
      (db.rows.filter (fun r =>
        r.status = "processing" ∧ r.retry_count < mr)).map
        (fun r => r.id) := by
    simp only [recover_orphaned_jobs]
    rw [hfold]
    dsimp only
    rw [List.nil_append, List.filter_filter]
    congr 1
    refine List.filter_congr ?_
    intro r hr
    simp [Bool.and_comm]
  refine ⟨h1, h2, ?_, ?_⟩
  · intro r hr hst hge hmem
    rw [h2] at hmem
    obtain ⟨r', hr', hid⟩ := List.mem_map.mp hmem
    have heq : r' = r := hinj r' (List.mem_of_mem_filter hr') r hr hid
    subst heq
    have hcond : r'.status = "processing" ∧ r'.retry_count < mr :=
      of_decide_eq_true (List.mem_filter.mp hr').2
    exact absurd hcond.2 (Nat.not_lt.mpr hge)
  · intro r hr hst hlt
    rw [h2]
    exact List.mem_map_of_mem _
      (List.mem_filter.mpr ⟨hr, by simp [hst, hlt]⟩)

def C4rowA : JobRow :=
  { baseRow "a" "v1" 0 with status := "processing", retry_count := 5 }

def C4rowB : JobRow :=
  { baseRow "b" "v2" 1 with status := "processing", retry_count := 0 }

def C4rowC : JobRow := baseRow "c" "v3" 2

def C4db : JobDB := { rows := [C4rowA, C4rowB, C4rowC], clock := 3 }

/-- C4 witness: a concrete store with an over-limit processing job, an
under-limit processing job and a pending job. -/
theorem C4_witness :
    "a" ∉ (recover_orphaned_jobs C4db 3).2 ∧
    "b" ∈ (recover_orphaned_jobs C4db 3).2 :=
  ⟨(C4_recover_orphaned C4db 3 (by decide)).2.2.1 C4rowA
      (List.mem_cons_self _ _) rfl (by decide),
   (C4_recover_orphaned C4db 3 (by decide)).2.2.2 C4rowB
      (List.mem_cons_of_mem _ (List.mem_cons_self _ _)) rfl (by decide)⟩

/-- After the fold, no accumulator row is left `processing`, provided
every processing row's id was among the orphans to sweep. -/
theorem foldl_recoverStep_no_processing (mr : Nat) :
    ∀ (os acc : List JobRow) (rec : List String),
      (∀ r ∈ acc, r.status = "processing" → r.id ∈ os.map (fun x => x.id)) →
      ∀ r ∈ (os.foldl (recoverStep mr) (acc, rec)).1,
        r.status ≠ "processing" := by
  intro os
  induction os with
  | nil =>
    intro acc rec hacc r hr hst
    exact absurd (hacc r hr hst) (List.not_mem_nil _)
  | cons o os ih =>
    intro acc rec hacc r hr
    rw [List.foldl_cons] at hr
    unfold recoverStep at hr
    by_cases hro : mr ≤ o.retry_count
    · rw [if_pos hro] at hr
      refine ih _ _ ?_ r hr
      intro x hx hxs
      unfold applyUpdateById at hx
      rw [List.mem_map] at hx
      obtain ⟨y, hy, rfl⟩ := hx
      by_cases hid : y.id = o.id
      · rw [if_pos hid] at hxs
        have hxs' : ("failed" : String) = "processing" := hxs
        exact absurd hxs' (by decide)
      · rw [if_neg hid] at hxs ⊢
        have hmem := hacc y hy hxs
        rw [List.map_cons, List.mem_cons] at hmem
        cases hmem with
        | inl h => exact absurd h hid
        | inr h => exact h
    · rw [if_neg hro] at hr
      refine ih _ _ ?_ r hr
      intro x hx hxs
      unfold applyUpdateById at hx
      rw [List.mem_map] at hx
      obtain ⟨y, hy, rfl⟩ := hx
      by_cases hid : y.id = o.id
      · rw [if_pos hid] at hxs
        have hxs' : ("pending" : String) = "processing" := hxs
        exact absurd hxs' (by decide)
      · rw [if_neg hid] at hxs ⊢
        have hmem := hacc y hy hxs
        rw [List.map_cons, List.mem_cons] at hmem
        cases hmem with
        | inl h => exact absurd h hid
        | inr h => exact h

/-- The first sweep leaves no row in `processing`. -/
theorem recover_no_processing (db : JobDB) (mr : Nat) :
    ∀ r ∈ (recover_orphaned_jobs db mr).1.rows, r.status ≠ "processing" := by
  intro r hr
  simp only [recover_orphaned_jobs] at hr
  refine foldl_recoverStep_no_processing mr _ db.rows [] ?_ r hr
  intro x hx hxs
  exact List.mem_map_of_mem _ (List.mem_filter.mpr ⟨hx, by simpa using hxs⟩)

/-- C5 (confirmed): with no operation in between, a second
`recover_orphaned_jobs` sweep with the same retry limit returns the empty
list, because the first sweep left no `processing` row. -/
theorem C5_recover_idempotent (db : JobDB) (mr : Nat) :
    (recover_orphaned_jobs (recover_orphaned_jobs db mr).1 mr).2 = [] := by
  have hfil : (recover_orphaned_jobs db mr).1.rows.filter
      (fun r => r.status = "processing") = [] :=
    List.filter_eq_nil_iff.mpr
      (fun r hr => by simpa using recover_no_processing db mr r hr)
  generalize hdb2 : (recover_orphaned_jobs db mr).1 = db2
  rw [hdb2] at hfil
  simp only [recover_orphaned_jobs]
  rw [hfil]
  rfl

/-! ## C6 — broadcast resilience -/

theorem disconnect_cons (x d : Conn) (l : List Conn) (h : d ≠ x) :
    disconnect (x :: l) d = x :: disconnect l d := by
  unfold disconnect
  by_cases hd : d ∈ l
  · rw [if_pos (List.mem_cons_of_mem x hd), if_pos hd]
    rw [List.erase_cons_tail]
    intro hx
    exact h (eq_of_beq hx).symm
  · rw [if_neg ?_, if_neg hd]
    intro hmem
    rcases List.mem_cons.mp hmem with h' | h'
    · exact h h'
    · exact hd h'

theorem foldl_disconnect_of_ne (ds : List Conn) (x : Conn)
    (h : ∀ d ∈ ds, d ≠ x) :
    ∀ l : List Conn,
      ds.foldl disconnect (x :: l) = x :: ds.foldl disconnect l := by
  induction ds with
  | nil => intro l; rfl
  | cons d ds ih =>
    intro l
    rw [List.foldl_cons, List.foldl_cons,
        disconnect_cons x d l (h d (List.mem_cons_self d ds)),
        ih (fun d' hd' => h d' (List.mem_cons_of_mem d hd')) _]

/-- Pruning exactly the failed connections from the live list leaves the
successfully-delivered ones, in order. -/
theorem foldl_disconnect_filter (p : Conn → Bool) :
    ∀ l : List Conn,
      (l.filter (fun c => !(p c))).foldl disconnect l = l.filter p := by
  intro l
  induction l with
  | nil => rfl
  | cons x l ih =>
    cases hx : p x with
    | true =>
      rw [List.filter_cons_of_neg (by simp [hx]),
          List.filter_cons_of_pos hx]
      rw [foldl_disconnect_of_ne _ x ?_ l, ih]
      intro d hd he
      have := (List.mem_filter.mp hd).2
      rw [he, hx] at this
      simp at this
    | false =>
      rw [List.filter_cons_of_pos (by simp [hx]),
          List.filter_cons_of_neg (by simp [hx])]
      rw [List.foldl_cons]
      have hdx : disconnect (x :: l) x = l := by
        unfold disconnect
        rw [if_pos (List.mem_cons_self x l)]
        exact List.erase_cons_head x l
      rw [hdx, ih]

/-- C6 (confirmed): `broadcast` attempts delivery to every live
connection; the connections whose send raises are removed from the live
list and the others are all delivered to and kept, in order; broadcasting
over an empty live list is a no-op. -/
theorem C6_broadcast_resilience (sendOk : Conn → Bool) (active : List Conn) :
    (broadcast sendOk active).1 = active.filter sendOk ∧
    (broadcast sendOk active).2 = active.filter sendOk ∧
    (∀ c ∈ active, sendOk c = false → c ∉ (broadcast sendOk active).1) ∧
    (∀ c ∈ active, sendOk c = true → c ∈ (broadcast sendOk active).2) ∧
    broadcast sendOk [] = ([], []) := by
  have h1 : (broadcast sendOk active).1 = active.filter sendOk := by
    simp only [broadcast]
    exact foldl_disconnect_filter sendOk active
  have h2 : (broadcast sendOk active).2 = active.filter sendOk := rfl
  refine ⟨h1, h2, ?_, ?_, rfl⟩
  · intro c hc hf hmem
    rw [h1] at hmem
    have := (List.mem_filter.mp hmem).2
    rw [hf] at this
    cases this
  · intro c hc ht
    rw [h2]
    exact List.mem_filter.mpr ⟨hc, ht⟩

def C6sendOk : Conn → Bool := fun c => c.cid ≠ 2

/-- C6 witness: three live connections of which the second throws on send;
the other two are delivered to and the throwing one is pruned. -/
theorem C6_witness :
    Conn.mk 2 ∉ (broadcast C6sendOk [Conn.mk 1, Conn.mk 2, Conn.mk 3]).1 ∧
    Conn.mk 1 ∈ (broadcast C6sendOk [Conn.mk 1, Conn.mk 2, Conn.mk 3]).2 ∧
    Conn.mk 3 ∈ (broadcast C6sendOk [Conn.mk 1, Conn.mk 2, Conn.mk 3]).2 :=
  ⟨(C6_broadcast_resilience C6sendOk [Conn.mk 1, Conn.mk 2, Conn.mk 3]).2.2.1
      (Conn.mk 2) (by decide) rfl,
   (C6_broadcast_resilience C6sendOk [Conn.mk 1, Conn.mk 2, Conn.mk 3]).2.2.2.1
      (Conn.mk 1) (by decide) rfl,
   (C6_broadcast_resilience C6sendOk [Conn.mk 1, Conn.mk 2, Conn.mk 3]).2.2.2.1
      (Conn.mk 3) (by decide) rfl⟩

/-! ## C8 — FIFO selection by the poll loop -/

/-- Rows are stored in creation order: the `created_at` stamps are
non-decreasing along the table. -/
def CreatedSorted (db : JobDB) : Prop :=
  (db.rows.map (fun r => r.created_at)).Pairwise (fun a b => a ≤ b)

/-- Every stored stamp precedes the store clock. -/
def ClockBound (db : JobDB) : Prop :=
  ∀ c ∈ db.rows.map (fun r => r.created_at), c < db.clock

/-- The recovery fold never changes any row's `created_at` stamp. -/
theorem foldl_recoverStep_created (mr : Nat) :
    ∀ (os acc : List JobRow) (rec : List String),
      ((os.foldl (recoverStep mr) (acc, rec)).1).map (fun r => r.created_at) =
        acc.map (fun r => r.created_at) := by
  intro os
  induction os with
  | nil => intro acc rec; rfl
  | cons o os ih =>
    intro acc rec
    rw [List.foldl_cons]
    by_cases hro : mr ≤ o.retry_count
    · have hstep : recoverStep mr (acc, rec) o =
          (applyUpdateById acc o.id rowFailCrash, rec) := by
        unfold recoverStep
        rw [if_pos hro]
      rw [hstep, ih]
      unfold applyUpdateById
      rw [List.map_map]
      refine List.map_congr_left ?_
      intro r hr
      by_cases h : r.id = o.id <;> simp [h, rowFailCrash, Function.comp]
    · have hstep : recoverStep mr (acc, rec) o =
          (applyUpdateById acc o.id rowResetPending, rec ++ [o.id]) := by
        unfold recoverStep
        rw [if_neg hro]
      rw [hstep, ih]
      unfold applyUpdateById
      rw [List.map_map]
      refine List.map_congr_left ?_
      intro r hr
      by_cases h : r.id = o.id <;> simp [h, rowResetPending, Function.comp]

/-- Every reachable store keeps its rows sorted by creation stamp, with
all stamps below the clock. -/
theorem reachable_created_sorted (db : JobDB) (h : Reachable db) :
    CreatedSorted db ∧ ClockBound db := by
  induction h with
  | empty =>
    exact ⟨List.Pairwise.nil, fun c hc => absurd hc (List.not_mem_nil c)⟩
  | create db jid vid vt pid cid m hdb ih =>
    obtain ⟨hs, hb⟩ := ih
    by_cases hc : (db.rows.any (fun r => r.id = jid)) = true
    · unfold CreatedSorted ClockBound create_job
      rw [if_pos hc]
      exact ⟨hs, hb⟩
    · unfold CreatedSorted ClockBound create_job
      rw [if_neg hc]
      dsimp only
      rw [List.map_append]
      constructor
      · rw [List.pairwise_append]
        refine ⟨hs, by simp, ?_⟩
        intro a ha b hb'
        rw [List.map_singleton, List.mem_singleton] at hb'
        rw [hb']
        exact le_of_lt (hb a ha)
      · intro c hc'
        rw [List.mem_append] at hc'
        cases hc' with
        | inl hin => exact lt_trans (hb c hin) (Nat.lt_succ_self _)
        | inr hnew =>
          rw [List.map_singleton, List.mem_singleton] at hnew
          rw [hnew]
          exact Nat.lt_succ_self _
  | status db jid st p em hdb ih =>
    obtain ⟨hs, hb⟩ := ih
    have hmap : (update_job_status db jid st p em).1.rows.map
        (fun r => r.created_at) = db.rows.map (fun r => r.created_at) := by
      simp only [update_job_status, applyUpdateById]
      rw [List.map_map]
      refine List.map_congr_left ?_
      intro r hr
      by_cases h : r.id = jid <;>
        simp [h, updateRowStatus_created_at, Function.comp]
    constructor
    · unfold CreatedSorted
      rw [hmap]
      exact hs
    · intro c hc
      rw [hmap] at hc
      exact lt_trans (hb c hc) (Nat.lt_succ_self _)
  | output db jid tm tj mf hdb ih =>
    obtain ⟨hs, hb⟩ := ih
    have hmap : (update_output_paths db jid tm tj mf).1.rows.map
        (fun r => r.created_at) = db.rows.map (fun r => r.created_at) := by
      simp only [update_output_paths, applyUpdateById]
      rw [List.map_map]
      refine List.map_congr_left ?_
      intro r hr
      by_cases h : r.id = jid <;> simp [h, Function.comp]
    constructor
    · unfold CreatedSorted
      rw [hmap]
      exact hs
    · intro c hc
      rw [hmap] at hc
      exact lt_trans (hb c hc) (Nat.lt_succ_self _)
  | recover db mr hdb ih =>
    obtain ⟨hs, hb⟩ := ih
    have hmap : (recover_orphaned_jobs db mr).1.rows.map
        (fun r => r.created_at) = db.rows.map (fun r => r.created_at) := by
      simp only [recover_orphaned_jobs]
      exact foldl_recoverStep_created mr _ db.rows []
    constructor
    · unfold CreatedSorted
      rw [hmap]
      exact hs
    · intro c hc
      rw [hmap] at hc
      exact lt_trans (hb c hc) (Nat.lt_succ_self _)

/-- Everything `list_pending_jobs` returns has status `pending`. -/
theorem list_pending_status (db : JobDB) :
    ∀ j ∈ list_pending_jobs db, j.status = "pending" := by
  intro j hj
  simp only [list_pending_jobs, list_jobs] at hj
  rw [if_neg (by decide)] at hj
  obtain ⟨r, hr, rfl⟩ := List.mem_map.mp hj
  exact of_decide_eq_true (List.mem_filter.mp hr).2

/-- C8 (confirmed): whenever the poll loop finds a pending job, the one it
selects (`pending_jobs[0]`) is pending and oldest by creation stamp among
all pending jobs.  Stated over reachable stores, whose rows the model
keeps in rowid order with non-decreasing `created_at` — the order a plain
`SELECT` returns them in. -/
theorem C8_fifo_selection (db : JobDB) (h : Reachable db) (j : Job)
    (hsel : selectNextJob db = some j) :
    j.status = "pending" ∧
    ∀ j' ∈ list_pending_jobs db, j.created_at ≤ j'.created_at := by
  have hsorted : ((list_pending_jobs db).map (fun x => x.created_at)).Pairwise
      (fun a b => a ≤ b) := by
    have h1 := (reachable_created_sorted db h).1
    unfold CreatedSorted at h1
    have hsub : ((db.rows.filter (fun r => r.status = "pending")).map
        (fun r => r.created_at)).Sublist
          (db.rows.map (fun r => r.created_at)) :=
      (List.filter_sublist db.rows).map (fun r => r.created_at)
    have h2 := h1.sublist hsub
    have h3 : (list_pending_jobs db).map (fun x => x.created_at) =
        (db.rows.filter (fun r => r.status = "pending")).map
          (fun r => r.created_at) := by
      simp only [list_pending_jobs, list_jobs]
      rw [if_neg (by decide), List.map_map]
      rfl
    rw [h3]
    exact h2
  cases hl : list_pending_jobs db with
  | nil =>
    simp only [selectNextJob, hl, List.head?_nil] at hsel
    exact Option.noConfusion hsel
  | cons a t =>
    have hj : a = j := by
      simp only [selectNextJob, hl, List.head?_cons] at hsel
      exact Option.some.inj hsel
    subst hj
    constructor
    · exact list_pending_status db a (by rw [hl]; exact List.mem_cons_self a t)
    · intro j' hj'
      rw [hl, List.map_cons] at hsorted
      have hpair := (List.pairwise_cons.mp hsorted).1
      rw [List.mem_cons] at hj'
      cases hj' with
      | inl he =>
        rw [he]
      | inr ht =>
        exact hpair j'.created_at (List.mem_map_of_mem _ ht)

def C8db : JobDB :=
  (create_job (create_job emptyDB "a" "v1" none none none none).1
    "b" "v2" none none none none).1

def C8rowA : JobRow := baseRow "a" "v1" 0

def C8rowB : JobRow := baseRow "b" "v2" 1

/-- C8 witness: with two pending jobs created in order, the poll loop
selects the first-created one, whose stamp is at most the other's. -/
theorem C8_witness :
    (rowToDict C8rowA).status = "pending" ∧
    (rowToDict C8rowA).created_at ≤ (rowToDict C8rowB).created_at :=
  ⟨(C8_fifo_selection C8db
      (Reachable.create (create_job emptyDB "a" "v1" none none none none).1
        "b" "v2" none none none none
        (Reachable.create emptyDB "a" "v1" none none none none
          Reachable.empty))
      (rowToDict C8rowA) rfl).1,
   (C8_fifo_selection C8db
      (Reachable.create (create_job emptyDB "a" "v1" none none none none).1
        "b" "v2" none none none none
        (Reachable.create emptyDB "a" "v1" none none none none
          Reachable.empty))
      (rowToDict C8rowA) rfl).2 (rowToDict C8rowB)
      (show rowToDict C8rowB ∈ [rowToDict C8rowA, rowToDict C8rowB] from
        List.mem_cons_of_mem _ (List.mem_cons_self _ _))⟩
